import Mathlib

/-!
Verification of the duplicate-code detection engine of AIGuardian
(`src/lib/tasks/common/format-code.js`, second document: the
`detectDuplicateCode` task).

The JavaScript source is shallowly embedded: every string-processing
`.replace(regex, ...)` chain, the two block-extraction scans, the Jaccard
similarity scorer, the greedy clusterer and the metrics/report assembly are
translated into executable Lean functions over `List Char` / `String`,
with JS numbers modelled as `Nat` / `Int` / `ℚ` (all similarity arithmetic
in the source is exact on the inputs considered, so `ℚ` is faithful).
Filesystem interaction of `detectDuplicateCode` is modelled by passing the
collected `(path, content)` list and the outcome of the report write
explicitly.  All definitions use structural recursion so that concrete
runs reduce inside the kernel.
-/

namespace AIGuardian

/-- The character class of the JavaScript regex `\s` (also the set used by
`String.prototype.trim`): space, tab, line feed, vertical tab, form feed,
carriage return, NBSP, and the Unicode space separators BOM included. -/
def isJsWS (c : Char) : Bool :=
  c = ' ' || c = '\t' || c = '\n' || c = '\r' ||
  c = Char.ofNat 11 || c = Char.ofNat 12 || c = Char.ofNat 160 ||
  c = Char.ofNat 5760 || (8192 ≤ c.toNat && c.toNat ≤ 8202) ||
  c = Char.ofNat 8232 || c = Char.ofNat 8233 || c = Char.ofNat 8239 ||
  c = Char.ofNat 8287 || c = Char.ofNat 12288 || c = Char.ofNat 65279

/-- The single-quote character, `'` (code point 39). -/
def squote : Char := Char.ofNat 39

/-- The double-quote character, `"` (code point 34). -/
def dquote : Char := Char.ofNat 34

/-- Left brace character (code point 123). -/
def lbrace : Char := Char.ofNat 123

/-- Right brace character (code point 125). -/
def rbrace : Char := Char.ofNat 125

/-- Word character of the JavaScript regex `\b` boundary and of the
identifier-continuation class `[a-zA-Z0-9_]` (note: `$` is *not* a `\w`
character in JavaScript). -/
def isWordChar (c : Char) : Bool :=
  c.isAlpha || c.isDigit || c = '_'

/-- Embeds `content.replace(/\s+/g, ' ')` : every maximal run of whitespace
becomes one space.  The flag records whether the previous character was
part of a whitespace run. -/
def collapseWSAux : Bool → List Char → List Char
  | _, [] => []
  | prevWS, c :: rest =>
    if isJsWS c then
      if prevWS then collapseWSAux true rest
      else ' ' :: collapseWSAux true rest
    else c :: collapseWSAux false rest

/-- Step 1 of `normalizeContent`: `.replace(/\s+/g, ' ')`. -/
def collapseWhitespace (cs : List Char) : List Char :=
  collapseWSAux false cs

/-- Step 2 of `normalizeContent`: `.replace(/\/\/.*$/gm, '')` — on every
line, remove from the first `//` to the end of that line (the `.` of the
regex does not cross line feeds).  The flag records whether the scan is
currently inside a dropped comment tail. -/
def stripLineCommentsAux : Bool → List Char → List Char
  | _, [] => []
  | true, '\n' :: rest => '\n' :: stripLineCommentsAux false rest
  | true, _ :: rest => stripLineCommentsAux true rest
  | false, '/' :: '/' :: rest => stripLineCommentsAux true rest
  | false, c :: rest => c :: stripLineCommentsAux false rest

/-- Step 2 entry point. -/
def stripLineComments (cs : List Char) : List Char :=
  stripLineCommentsAux false cs

/-- Helper for step 3: scan for the closing `*/`; `some rest` is the text
after the closing delimiter, `none` when the comment never closes. -/
def findBlockCommentClose : List Char → Option (List Char)
  | '*' :: '/' :: rest => some rest
  | _ :: rest => findBlockCommentClose rest
  | [] => none

/-- Step 3 of `normalizeContent`: `.replace(/\/\*[\s\S]*?\*\//g, '')` —
every lazily-matched `/* ... */` block comment is removed; an unterminated
`/*` matches nothing and the remaining text is kept verbatim (`pending`
holds, reversed, the text provisionally inside an open comment). -/
def stripBlockCommentsAux : List Char → List Char → List Char
  | [], '/' :: '*' :: rest => stripBlockCommentsAux ['*', '/'] rest
  | [], c :: rest => c :: stripBlockCommentsAux [] rest
  | [], [] => []
  | _, '*' :: '/' :: rest => stripBlockCommentsAux [] rest
  | pending, c :: rest => stripBlockCommentsAux (c :: pending) rest
  | pending, [] => pending.reverse

/-- Step 3 entry point. -/
def stripBlockComments (cs : List Char) : List Char :=
  stripBlockCommentsAux [] cs

/-- Helper for step 4: after an opening quote, the lazy `.*?` looks for
the *nearest* following quote (single or double, the regex does not pair
them) on the same line; `some rest` is the text after that closing
quote. -/
def findQuoteClose : List Char → Option (List Char)
  | [] => none
  | c :: rest =>
    if c = squote || c = dquote then some rest
    else if c = '\n' then none
    else findQuoteClose rest

/-- Step 4 of `normalizeContent`:
`.replace(/['"].*?['"]/, '"STRING"')` — the regex is **not** global, so
only the first (leftmost, lazily shortest) quoted literal in the whole
block is replaced by the fixed placeholder `"STRING"`; every later quoted
literal is left untouched. -/
def maskFirstStringLit : List Char → List Char
  | [] => []
  | c :: rest =>
    if c = squote || c = dquote then
      match findQuoteClose rest with
      | some rest2 => dquote :: ('S' :: 'T' :: 'R' :: 'I' :: 'N' :: 'G' :: [dquote]) ++ rest2
      | none => c :: maskFirstStringLit rest
    else c :: maskFirstStringLit rest

/-- Step 5 of `normalizeContent`: `.replace(/\d+/g, '0')` — every maximal
run of decimal digits becomes a single `0`. -/
def normalizeNumbersAux : Bool → List Char → List Char
  | _, [] => []
  | prevDigit, c :: rest =>
    if c.isDigit then
      if prevDigit then normalizeNumbersAux true rest
      else '0' :: normalizeNumbersAux true rest
    else c :: normalizeNumbersAux false rest

/-- Step 5 entry point. -/
def normalizeNumbers (cs : List Char) : List Char :=
  normalizeNumbersAux false cs

/-- Applies `f` to every maximal run of word characters (`[a-zA-Z0-9_]`)
and keeps every non-word character; this is how a global
word-boundary-delimited replacement `/\b...\b/g` acts on the text.  `acc`
carries the current run, reversed. -/
def mapWordRunsAux (f : List Char → List Char) : List Char → List Char → List Char
  | acc, [] => if acc.isEmpty then [] else f acc.reverse
  | acc, c :: rest =>
    if isWordChar c then mapWordRunsAux f (c :: acc) rest
    else
      (if acc.isEmpty then [] else f acc.reverse) ++ c :: mapWordRunsAux f [] rest

/-- Entry point of the word-run mapper. -/
def mapWordRuns (f : List Char → List Char) (cs : List Char) : List Char :=
  mapWordRunsAux f [] cs

/-- Replacement of step 6: `var`, `let` and `const` all become `var`. -/
def varDeclWord (w : List Char) : List Char :=
  if w = "var".data || w = "let".data || w = "const".data then "var".data else w

/-- Step 6 of `normalizeContent`:
`.replace(/\b(var|let|const)\b/g, 'var')`. -/
def normalizeVarDecls (cs : List Char) : List Char :=
  mapWordRuns varDeclWord cs

/-- The keyword group of step 7 of the source,
`(if|for|while|switch|return|function|class|import|export)`. -/
def flowKeywords : List (List Char) :=
  ["if".data, "for".data, "while".data, "switch".data, "return".data,
   "function".data, "class".data, "import".data, "export".data]

/-- Step 7 of `normalizeContent`:
`.replace(/\b(if|for|while|switch|return|function|class|import|export)\b/g, '$1')`
— each matched keyword is replaced by itself, so the pass changes
nothing; it is kept to mirror the source chain. -/
def keepKeywordsPass (cs : List Char) : List Char :=
  mapWordRuns (fun w => if w ∈ flowKeywords then w else w) cs

/-- The keyword allow-list used by the identifier-bucketing callback of
step 8 (`keywords` in the source): the flow keywords plus `var`. -/
def bucketKeywords : List (List Char) :=
  ["if".data, "for".data, "while".data, "switch".data, "return".data,
   "function".data, "class".data, "import".data, "export".data, "var".data]

/-- The replacement callback of step 8: keep allow-listed keywords and map
every other identifier into one of four buckets by prefix/suffix
sniffing, in the if-chain order of the source. -/
def bucketWord (w : List Char) : List Char :=
  if w ∈ bucketKeywords then w
  else if List.isPrefixOf "get".data w || List.isPrefixOf "set".data w then
    "accessor".data
  else if List.isPrefixOf "on".data w || List.isSuffixOf "Handler".data w ||
      List.isSuffixOf "Listener".data w then
    "eventHandler".data
  else if List.isPrefixOf "is".data w || List.isPrefixOf "has".data w ||
      List.isPrefixOf "should".data w then
    "booleanVar".data
  else "identifier".data

/-- Step 8 of `normalizeContent`:
`.replace(/\b[a-zA-Z_][a-zA-Z0-9_]*\b/g, callback)` — a maximal word run
is an identifier match exactly when its first character is a letter or an
underscore (a run starting with a digit contains no `\b` boundary before
its first letter, so it is left untouched). -/
def bucketIdentifiers (cs : List Char) : List Char :=
  mapWordRuns
    (fun w =>
      match w with
      | [] => []
      | c :: _ => if c.isAlpha || c = '_' then bucketWord w else w)
    cs

/-- Step 9 of `normalizeContent`: `.trim()` — strip whitespace from both
ends. -/
def jsTrimChars (cs : List Char) : List Char :=
  ((cs.dropWhile isJsWS).reverse.dropWhile isJsWS).reverse

/-- Embeds `line.trim()` on a `String`. -/
def jsTrim (s : String) : String :=
  String.mk (jsTrimChars s.data)

/--
Embeds `normalizeContent(content)` of the source, the chain of nine `.replace`
steps applied in source order:

```js
return content
  .replace(/\s+/g, ' ')
  .replace(/\/\/.*$/gm, '')
  .replace(/\/\*[\s\S]*?\*\//g, '')
  .replace(/['"].*?['"]/, '"STRING"')
  .replace(/\d+/g, '0')
  .replace(/\b(var|let|const)\b/g, 'var')
  .replace(/\b(if|...|export)\b/g, '$1')
  .replace(/\b[a-zA-Z_][a-zA-Z0-9_]*\b/g, bucketCallback)
  .trim();
```
-/
def normalizeContent (content : String) : String :=
  String.mk
    (jsTrimChars
      (bucketIdentifiers
        (keepKeywordsPass
          (normalizeVarDecls
            (normalizeNumbers
              (maskFirstStringLit
                (stripBlockComments
                  (stripLineComments
                    (collapseWhitespace content.data)))))))))

/-! ## Block extraction (`findCodeBlocks`) -/

/-- Embeds `CodeBlock` as produced by `findCodeBlocks`:
`{ file, startLine, endLine, content }` with 1-based line numbers. -/
structure CodeBlock where
  file : String
  startLine : Nat
  endLine : Nat
  content : String
  deriving DecidableEq, Repr, Inhabited

/-- Embeds `content.split('\n')` on the character list: the list of lines, never
empty (splitting the empty string yields one empty line). -/
def splitNLChars : List Char → List (List Char)
  | [] => [[]]
  | c :: rest =>
    if c = '\n' then [] :: splitNLChars rest
    else
      match splitNLChars rest with
      | l :: ls => (c :: l) :: ls
      | [] => [[c]]

/-- Embeds `content.split('\n')` as a list of `String`s. -/
def splitLines (content : String) : List String :=
  (splitNLChars content.data).map String.mk

/-- Substring test (`line.includes(...)` of JS). -/
def containsSub (needle : List Char) : List Char → Bool
  | [] => List.isPrefixOf needle []
  | c :: rest => List.isPrefixOf needle (c :: rest) || containsSub needle rest

/-- Character class `[a-zA-Z0-9_$]` of the function-declaration regexes
(unlike `\w` it includes the dollar sign). -/
def isIdentDollarChar (c : Char) : Bool :=
  c.isAlpha || c.isDigit || c = '_' || c = '$'

/-- Embeds `/^\s*[a-zA-Z0-9_$]+\s*\([^)]*\)\s*\x7b/` — the "named function"
heuristic: identifier, parenthesised parameter list, opening brace. -/
def matchNamedFun (cs : List Char) : Bool :=
  let s1 := cs.dropWhile isJsWS
  let w := s1.takeWhile isIdentDollarChar
  if w.isEmpty then false
  else
    match (s1.dropWhile isIdentDollarChar).dropWhile isJsWS with
    | '(' :: s3 =>
      match s3.dropWhile (fun c => !(c = ')')) with
      | ')' :: s5 =>
        match s5.dropWhile isJsWS with
        | c :: _ => c = lbrace
        | [] => false
      | _ => false
    | _ => false

/-- Embeds `/^\s*\([^)]*\)\s*=>\s*\x7b/` — the "arrow function with block"
heuristic. -/
def matchArrowFun (cs : List Char) : Bool :=
  match cs.dropWhile isJsWS with
  | '(' :: s1 =>
    match s1.dropWhile (fun c => !(c = ')')) with
    | ')' :: s2 =>
      match s2.dropWhile isJsWS with
      | '=' :: '>' :: s3 =>
        match s3.dropWhile isJsWS with
        | c :: _ => c = lbrace
        | [] => false
      | _ => false
    | _ => false
  | _ => false

/-- Embeds `/^\s*[a-zA-Z0-9_$]+\s*:\s*function/` — the "object method"
heuristic. -/
def matchObjMethod (cs : List Char) : Bool :=
  let s1 := cs.dropWhile isJsWS
  let w := s1.takeWhile isIdentDollarChar
  if w.isEmpty then false
  else
    match (s1.dropWhile isIdentDollarChar).dropWhile isJsWS with
    | ':' :: s3 => List.isPrefixOf "function".data (s3.dropWhile isJsWS)
    | _ => false

/-- The function-declaration detection of the brace scan, applied to the
already-trimmed line:

```js
line.includes('function ') ||
line.match(named) || line.match(arrow) || line.match(objMethod)
```
-/
def isFunctionStart (line : String) : Bool :=
  containsSub "function ".data line.data ||
  matchNamedFun line.data || matchArrowFun line.data || matchObjMethod line.data

/-- Net brace count of one line:
`(line.match(/\x7b/g) || []).length - (line.match(/\x7d/g) || []).length`. -/
def braceDelta (line : String) : Int :=
  (line.data.count lbrace : Int) - (line.data.count rbrace : Int)

/-- Lines skipped by the brace scan: blank lines and lines whose trimmed
text starts with `//`, `#` or `/*`. -/
def isSkippedLine (trimmed : String) : Bool :=
  trimmed = "" || List.isPrefixOf "//".data trimmed.data ||
  List.isPrefixOf "#".data trimmed.data || List.isPrefixOf "/*".data trimmed.data

/-- Mutable state of the brace scan (`inFunction`, `functionStart`,
`braceCount`, `currentBlock`; the block holds trimmed lines). -/
structure FunState where
  inFunction : Bool
  functionStart : Nat
  braceCount : Int
  currentBlock : List String
  deriving Repr

/-- Embeds `lines.join('\n')`. -/
def joinNL (ls : List String) : String :=
  String.mk ((ls.map String.data).intersperse ['\n']).flatten

/-- The function/method pass of `findCodeBlocks`: walks the raw lines
with index `i`, skipping blank and comment lines, opening a block when
`isFunctionStart` fires, tracking the net brace count, and emitting the
block when the count returns to zero — only if it collected at least
`minBlockSize` lines.  A function left open at the end of the file is
discarded. -/
def funScanAux (file : String) (minBlockSize : Nat) :
    Nat → FunState → List String → List CodeBlock
  | _, _, [] => []
  | i, st, rawLine :: rest =>
    let line := jsTrim rawLine
    if isSkippedLine line then
      funScanAux file minBlockSize (i + 1) st rest
    else if !st.inFunction && isFunctionStart line then
      funScanAux file minBlockSize (i + 1)
        ⟨true, i, braceDelta line, [line]⟩ rest
    else if st.inFunction then
      let currentBlock := st.currentBlock ++ [line]
      let braceCount := st.braceCount + braceDelta line
      if braceCount = 0 then
        (if minBlockSize ≤ currentBlock.length then
          [⟨file, st.functionStart + 1, i + 1, joinNL currentBlock⟩]
         else []) ++
        funScanAux file minBlockSize (i + 1) ⟨false, st.functionStart, braceCount, []⟩ rest
      else
        funScanAux file minBlockSize (i + 1)
          ⟨true, st.functionStart, braceCount, currentBlock⟩ rest
    else
      funScanAux file minBlockSize (i + 1) st rest

/-- Leading-whitespace column count of a raw line
(`line.match(/^(\s*)/)[1].length`). -/
def leadingWS (line : String) : Nat :=
  (line.data.takeWhile isJsWS).length

/-- Mutable state of the indentation scan; `currentIndentLevel = none`
models the `-1` sentinel.  `currentIndentBlock` holds the trimmed lines of
the current run. -/
structure IndState where
  currentIndentLevel : Option Nat
  indentBlockStart : Nat
  currentIndentBlock : List String
  deriving Repr

/-- The indentation pass of `findCodeBlocks`: groups consecutive
non-blank lines, starting a new run when a non-blank line is indented
*less than the level at which the current run started* (the source never
updates `currentIndentLevel` while the indentation grows), emitting each
closed run that collected at least `minBlockSize` non-blank lines, and
emitting the final run against `totalLines` at the end of the file. -/
def indentScanAux (file : String) (minBlockSize totalLines : Nat) :
    Nat → IndState → List String → List CodeBlock
  | _, st, [] =>
    if minBlockSize ≤ st.currentIndentBlock.length then
      [⟨file, st.indentBlockStart + 1, totalLines, joinNL st.currentIndentBlock⟩]
    else []
  | i, st, rawLine :: rest =>
    if jsTrim rawLine = "" then
      indentScanAux file minBlockSize totalLines (i + 1) st rest
    else
      let indentLevel := leadingWS rawLine
      match st.currentIndentLevel with
      | none =>
        indentScanAux file minBlockSize totalLines (i + 1)
          ⟨some indentLevel, i, [jsTrim rawLine]⟩ rest
      | some lvl =>
        if lvl < indentLevel then
          indentScanAux file minBlockSize totalLines (i + 1)
            ⟨some lvl, st.indentBlockStart, st.currentIndentBlock ++ [jsTrim rawLine]⟩ rest
        else if indentLevel < lvl then
          (if minBlockSize ≤ st.currentIndentBlock.length then
            [⟨file, st.indentBlockStart + 1, i, joinNL st.currentIndentBlock⟩]
           else []) ++
          indentScanAux file minBlockSize totalLines (i + 1)
            ⟨some indentLevel, i, [jsTrim rawLine]⟩ rest
        else
          indentScanAux file minBlockSize totalLines (i + 1)
            ⟨some lvl, st.indentBlockStart, st.currentIndentBlock ++ [jsTrim rawLine]⟩ rest

/-- The indentation pass of `findCodeBlocks` on a whole file content. -/
def indentScan (file content : String) (minBlockSize : Nat) : List CodeBlock :=
  let lines := splitLines content
  indentScanAux file minBlockSize lines.length 0 ⟨none, 0, []⟩ lines

/-- Embeds `findCodeBlocks(filePath, content, minBlockSize)`: the blocks of the
brace scan followed by the blocks of the indentation scan, in source
emission order. -/
def findCodeBlocks (filePath : String) (content : String) (minBlockSize : Nat := 5) :
    List CodeBlock :=
  let lines := splitLines content
  funScanAux filePath minBlockSize 0 ⟨false, 0, 0, []⟩ lines ++
    indentScan filePath content minBlockSize

/-- Modelled from the spec sentence of C3 ("a new block begins whenever
the indentation decreases from the previous line's level, or at the start
of the file; each run is emitted if it meets the minimum size"): the same
scan, but a run is closed when a non-blank line is indented strictly less
than the **previous non-blank line** (whose indentation is the `prev`
argument; a run always starts at the first non-blank line).  The run
state is `(startIdx, trimmed lines)`. -/
def indentScanPrevAux (file : String) (minBlockSize totalLines : Nat) :
    Nat → Nat → Option (Nat × List String) → List String → List CodeBlock
  | _, _, run, [] =>
    match run with
    | some (s, blk) =>
      if minBlockSize ≤ blk.length then [⟨file, s + 1, totalLines, joinNL blk⟩] else []
    | none => []
  | i, prev, run, rawLine :: rest =>
    if jsTrim rawLine = "" then
      indentScanPrevAux file minBlockSize totalLines (i + 1) prev run rest
    else
      let ind := leadingWS rawLine
      match run with
      | none =>
        indentScanPrevAux file minBlockSize totalLines (i + 1) ind
          (some (i, [jsTrim rawLine])) rest
      | some (s, blk) =>
        if ind < prev then
          (if minBlockSize ≤ blk.length then [⟨file, s + 1, i, joinNL blk⟩] else []) ++
          indentScanPrevAux file minBlockSize totalLines (i + 1) ind
            (some (i, [jsTrim rawLine])) rest
        else
          indentScanPrevAux file minBlockSize totalLines (i + 1) ind
            (some (s, blk ++ [jsTrim rawLine])) rest

/-- The claim-side scan (C3, as written): previous-line comparison. -/
def indentScanPrevSpec (file content : String) (minBlockSize : Nat) : List CodeBlock :=
  let lines := splitLines content
  indentScanPrevAux file minBlockSize lines.length 0 0 none lines

/-- The amended boundary rule: a run is closed when a non-blank line is
indented strictly less than the level recorded **when the run started**.
The run state is `(startIdx, startIndent, trimmed lines)`. -/
def indentScanStartAux (file : String) (minBlockSize totalLines : Nat) :
    Nat → Option (Nat × Nat × List String) → List String → List CodeBlock
  | _, run, [] =>
    match run with
    | some (s, _, blk) =>
      if minBlockSize ≤ blk.length then [⟨file, s + 1, totalLines, joinNL blk⟩] else []
    | none => []
  | i, run, rawLine :: rest =>
    if jsTrim rawLine = "" then
      indentScanStartAux file minBlockSize totalLines (i + 1) run rest
    else
      let ind := leadingWS rawLine
      match run with
      | none =>
        indentScanStartAux file minBlockSize totalLines (i + 1)
          (some (i, ind, [jsTrim rawLine])) rest
      | some (s, startLvl, blk) =>
        if ind < startLvl then
          (if minBlockSize ≤ blk.length then [⟨file, s + 1, i, joinNL blk⟩] else []) ++
          indentScanStartAux file minBlockSize totalLines (i + 1)
            (some (i, ind, [jsTrim rawLine])) rest
        else
          indentScanStartAux file minBlockSize totalLines (i + 1)
            (some (s, startLvl, blk ++ [jsTrim rawLine])) rest

/-- The amended-claim scan for C3: run-start-level comparison. -/
def indentScanStartSpec (file content : String) (minBlockSize : Nat) : List CodeBlock :=
  let lines := splitLines content
  indentScanStartAux file minBlockSize lines.length 0 none lines

/-! ## Similarity scoring (`compareBlocks`) -/

/-- The same-file-overlap test that short-circuits `compareBlocks`:

```js
(b1.startLine <= b2.startLine && b1.endLine >= b2.startLine) ||
(b2.startLine <= b1.startLine && b2.endLine >= b1.startLine)
```
guarded by `block1.file === block2.file`. -/
def sameFileOverlap (b1 b2 : CodeBlock) : Prop :=
  b1.file = b2.file ∧
    (b1.startLine ≤ b2.startLine ∧ b2.startLine ≤ b1.endLine ∨
     b2.startLine ≤ b1.startLine ∧ b1.startLine ≤ b2.endLine)

instance (b1 b2 : CodeBlock) : Decidable (sameFileOverlap b1 b2) :=
  inferInstanceAs (Decidable (_ ∧ _))

/-- Embeds `content.split(/\s+/).filter(t => t.length > 0)` : the maximal runs
of non-whitespace characters.  `acc` carries the current token,
reversed. -/
def wsTokensAux : List Char → List Char → List (List Char)
  | acc, [] => if acc.isEmpty then [] else [acc.reverse]
  | acc, c :: rest =>
    if isJsWS c then
      (if acc.isEmpty then [] else [acc.reverse]) ++ wsTokensAux [] rest
    else wsTokensAux (c :: acc) rest

/-- Tokenisation entry point. -/
def wsTokens (cs : List Char) : List (List Char) :=
  wsTokensAux [] cs

/-- Embeds `compareBlocks(block1, block2)`: 0 for overlapping same-file ranges,
1 for identical normalized text, otherwise the Jaccard index of the two
token sets. -/
def compareBlocks (block1 block2 : CodeBlock) : ℚ :=
  if sameFileOverlap block1 block2 then 0
  else
    let content1 := normalizeContent block1.content
    let content2 := normalizeContent block2.content
    if content1 = content2 then 1
    else
      let set1 := (wsTokens content1.data).toFinset
      let set2 := (wsTokens content2.data).toFinset
      let intersection := set1 ∩ set2
      let union := set1 ∪ set2
      (intersection.card : ℚ) / (union.card : ℚ)

/-! ## Clustering (`findDuplications`) -/

/-- One duplication finding: the anchor-averaged similarity and the
instance list (anchor first). -/
structure Duplication where
  similarity : ℚ
  instances : List CodeBlock
  deriving Repr, Inhabited

/-- The size pre-filter of the inner loop: the candidate is skipped when
the line-count difference exceeds 20 % of the larger block
(`lineDifference > 0.2 * Math.max(block1Lines, block2Lines)`; on the
integer line counts of the source this float comparison coincides with
`5 * lineDifference > max`). -/
def sizeSkip (block1 block2 : CodeBlock) : Prop :=
  let block1Lines : Int := (block1.endLine : Int) - block1.startLine + 1
  let block2Lines : Int := (block2.endLine : Int) - block2.startLine + 1
  let lineDifference := |block1Lines - block2Lines|
  5 * lineDifference > max block1Lines block2Lines

instance (b1 b2 : CodeBlock) : Decidable (sizeSkip b1 b2) :=
  inferInstanceAs (Decidable (_ > _))

/-- The inner `j` loop of `findDuplications` for anchor index `i`: the
indices `j` in `i+1 .. n-1`, in order, that are not yet claimed, survive
the size pre-filter and score at least the threshold against the anchor
(the threshold comparison `similarity >= similarityThreshold` is
inclusive). -/
def candidateMatches (blocks : List CodeBlock) (similarityThreshold : ℚ)
    (processed : List Nat) (i : Nat) : List Nat :=
  (List.range' (i + 1) (blocks.length - (i + 1))).filter fun j =>
    !processed.contains j &&
    !decide (sizeSkip (blocks.getD i default) (blocks.getD j default)) &&
    decide (similarityThreshold ≤ compareBlocks (blocks.getD i default) (blocks.getD j default))

/-- The outer loop of `findDuplications` over the anchor indices `idxs`
(called with `0 .. n-1`), carrying the claimed-index set `processed`.
When an anchor finds at least one match, the anchor and the matches are
claimed and a `Duplication` is emitted whose similarity is the mean of
the anchor-to-match scores

```js
instances.slice(1).reduce((sum, b) => sum + compareBlocks(block1, b), 0)
  / (instances.length - 1)
```
-/
def findDupsGo (blocks : List CodeBlock) (similarityThreshold : ℚ) :
    List Nat → List Nat → List Duplication
  | [], _ => []
  | i :: restIdx, processed =>
    if processed.contains i then
      findDupsGo blocks similarityThreshold restIdx processed
    else
      let ms := candidateMatches blocks similarityThreshold processed i
      if ms.isEmpty then
        findDupsGo blocks similarityThreshold restIdx processed
      else
        let block1 := blocks.getD i default
        let instances := block1 :: ms.map (fun j => blocks.getD j default)
        let avgSimilarity :=
          ((ms.map fun j => compareBlocks block1 (blocks.getD j default)).foldl (· + ·) 0) /
            ((instances.length - 1 : Nat) : ℚ)
        ⟨avgSimilarity, instances⟩ ::
          findDupsGo blocks similarityThreshold restIdx (processed ++ i :: ms)

/-- The final sort comparator,
`(a, b) => b.instances.length - a.instances.length` with ties broken by
`b.similarity - a.similarity` (instance count descending, then similarity
descending; `Array.prototype.sort` is stable). -/
def dupLE (a b : Duplication) : Bool :=
  b.instances.length < a.instances.length ||
  (b.instances.length = a.instances.length && decide (b.similarity ≤ a.similarity))

/-- Stable insertion of `a` into a sorted list: `a` is placed before the
first element it may precede, so elements comparing equal keep their
original relative order. -/
def stableInsert (le : Duplication → Duplication → Bool) (a : Duplication) :
    List Duplication → List Duplication
  | [] => [a]
  | b :: l => if le a b then a :: b :: l else b :: stableInsert le a l

/-- Stable sort by `le` (insertion sort).  `Array.prototype.sort` is
stable, and for the total comparator `dupLE` every stable sort produces
the same list, so this is the sort of the source. -/
def stableSort (le : Duplication → Duplication → Bool) :
    List Duplication → List Duplication
  | [] => []
  | a :: l => stableInsert le a (stableSort le l)

/-- A JavaScript argument value, as far as the guard
`!allBlocks || !Array.isArray(allBlocks) || allBlocks.length === 0`
distinguishes it: `null`, `undefined`, some non-array value, or an
array of blocks. -/
inductive JSValue where
  | nullv
  | undefinedv
  | nonArray
  | arr (blocks : List CodeBlock)

/-- Embeds `findDuplications(allBlocks, similarityThreshold)`: empty for a
missing / non-array / empty argument, otherwise the greedy
anchor-driven clustering followed by the stable sort. -/
def findDuplications (allBlocks : JSValue) (similarityThreshold : ℚ) : List Duplication :=
  match allBlocks with
  | .arr blocks =>
    if blocks.isEmpty then []
    else
      stableSort dupLE (findDupsGo blocks similarityThreshold (List.range blocks.length) [])
  | _ => []

/-! ## Metrics, report and the `detectDuplicateCode` task -/

/-- Decimal digits of `n` (fuel-driven so that it reduces in the
kernel). -/
def natDigitsAux : Nat → Nat → List Char
  | 0, _ => []
  | fuel + 1, n =>
    if n = 0 then []
    else natDigitsAux fuel (n / 10) ++ [Char.ofNat (48 + n % 10)]

/-- JavaScript template-string rendering of a non-negative number. -/
def natToStr (n : Nat) : String :=
  if n = 0 then "0" else String.mk (natDigitsAux (n + 1) n)

/-- JavaScript template-string rendering of an integer. -/
def intToStr (i : Int) : String :=
  if i < 0 then String.mk ('-' :: (natToStr i.natAbs).data) else natToStr i.natAbs

/-- Embeds `Math.round` (half-up). -/
def jsRound (q : ℚ) : Int := ⌊q + 1 / 2⌋

/-- Embeds `entry.name.endsWith(ext)`. -/
def strEndsWith (s suffixStr : String) : Bool :=
  List.isSuffixOf suffixStr.data s.data

/-- Embeds `getFileExtensions(projectTypes)` — the extension list for the
detected project types (`projectTypes` has already been coerced to an
array by the caller). -/
def getFileExtensions (projectTypes : List String) : List String :=
  (if projectTypes.isEmpty || projectTypes.contains "generic" ||
      projectTypes.contains "unknown" then
    [".js", ".jsx"]
   else []) ++
  (if projectTypes.contains "javascript" || projectTypes.contains "typescript" then
    [".js", ".jsx"] ++
      (if projectTypes.contains "typescript" then [".ts", ".tsx"] else [])
   else []) ++
  (if projectTypes.contains "python" then [".py"] else []) ++
  (if projectTypes.contains "java" then [".java"] else [])

/-- Abstraction of `path.relative(projectPath, file)` adequate for files
under the project root: strip the `projectPath + "/"` prefix, otherwise
return the path unchanged. -/
def relativePath (base p : String) : String :=
  if List.isPrefixOf (base.data ++ ['/']) p.data then
    String.mk (p.data.drop (base.data.length + 1))
  else p

/-- Line count of one instance, `instance.endLine - instance.startLine + 1`. -/
def instanceLines (b : CodeBlock) : Int :=
  (b.endLine : Int) - b.startLine + 1

/-- Embeds `Math.floor(sum of line counts / instance count)`. -/
def avgLinesOf (instances : List CodeBlock) : Int :=
  ⌊(((instances.map instanceLines).foldl (· + ·) 0 : Int) : ℚ) / (instances.length : ℚ)⌋

/-- Embeds `avgLines * (instances.length - 1)` for one duplication. -/
def dupPotentialLinesReduced (d : Duplication) : Int :=
  avgLinesOf d.instances * ((d.instances.length : Int) - 1)

/-- The `affectedFiles` set: distinct file paths across all instances of
all duplications. -/
def affectedFilesCount (duplications : List Duplication) : Nat :=
  (((duplications.map (·.instances)).flatten).map (·.file)).dedup.length

/-- Aggregate `totalPotentialLinesReduced`. -/
def totalPotentialLinesReduced (duplications : List Duplication) : Int :=
  ((duplications.map dupPotentialLinesReduced).foldl (· + ·) 0 : Int)

/-- The per-instance location lines of `formatDuplicationReport`. -/
def locationLines (projectPath : String) (instances : List CodeBlock) : String :=
  String.join (instances.enum.map fun p =>
    "    " ++ natToStr (p.1 + 1) ++ ". " ++ relativePath projectPath p.2.file ++
      " (lines " ++ natToStr p.2.startLine ++ "-" ++ natToStr p.2.endLine ++ ")\n")

/-- The fixed suggestion decision table of `formatDuplicationReport`:
three or more instances → shared utility; similarity at least 0.9 →
parameterized function; otherwise manual review. -/
def suggestionText (d : Duplication) : String :=
  if 3 ≤ d.instances.length then
    "Consider extracting this code into a shared utility function.\n"
  else if (9 / 10 : ℚ) ≤ d.similarity then
    "Extract this code into a parameterized function to avoid duplication.\n"
  else
    "Review these similar code blocks for potential refactoring.\n"

/-- Embeds `formatDuplicationReport(duplication, index, projectPath)`. -/
def formatDuplicationReport (d : Duplication) (index : Nat) (projectPath : String) :
    String :=
  "Duplication #" ++ natToStr (index + 1) ++ ":\n" ++
  "  Similarity: " ++ intToStr (jsRound (d.similarity * 100)) ++ "%\n" ++
  "  Instances: " ++ natToStr d.instances.length ++ "\n" ++
  "  Average Lines: " ++ intToStr (avgLinesOf d.instances) ++ "\n" ++
  "  Potential Lines Reduced: " ++ intToStr (dupPotentialLinesReduced d) ++ "\n" ++
  "  Locations:\n" ++ locationLines projectPath d.instances ++
  "  Suggestion: " ++ suggestionText d ++ "\n"

/-- The severity-keyed recommendations block of the report. -/
def recommendationsText (total : Int) : String :=
  if 100 < total then
    "⚠️ HIGH DUPLICATION: Your codebase has significant code duplication.\n" ++
    "Consider implementing the following refactoring strategies:\n" ++
    "1. Extract utility functions for common operations\n" ++
    "2. Create base classes or mixins for shared functionality\n" ++
    "3. Implement a more modular architecture\n"
  else if 50 < total then
    "⚠️ MODERATE DUPLICATION: Your codebase has some code duplication.\n" ++
    "Consider implementing the following refactoring strategies:\n" ++
    "1. Extract shared code into helper functions\n" ++
    "2. Use composition to share behavior between components\n"
  else if 0 < total then
    "⚠️ LOW DUPLICATION: Your codebase has minor code duplication.\n" ++
    "Consider reviewing the identified duplications and refactoring as needed.\n"
  else
    "✓ NO DUPLICATION: Your codebase has no significant code duplication.\n"

/-- The full text of the report file.  With no duplications the report
states that none were found; otherwise it lists every duplication and
appends the summary and recommendations. -/
def buildReportContent (projectPath : String) (sourceFilesCount : Nat)
    (duplications : List Duplication) : String :=
  "━━━ Duplicate Code Detection Report ━━━\n\n" ++
  (if duplications.isEmpty then
    "No duplicate code blocks found in the project.\n"
  else
    "Found " ++ natToStr duplications.length ++ " duplicate code blocks across " ++
      natToStr sourceFilesCount ++ " files.\n\n" ++
    String.join (duplications.enum.map fun p =>
      formatDuplicationReport p.2 p.1 projectPath) ++
    "━━━ Summary ━━━\n" ++
    "Total Duplicate Blocks: " ++ natToStr duplications.length ++ "\n" ++
    "Affected Files: " ++ natToStr (affectedFilesCount duplications) ++ "\n" ++
    "Potential Lines Reduced: " ++ intToStr (totalPotentialLinesReduced duplications) ++
      "\n" ++
    "\n━━━ Recommendations ━━━\n" ++
    recommendationsText (totalPotentialLinesReduced duplications))

/-- The `metrics` object of the task result. -/
structure Metrics where
  duplicateBlocks : Nat
  affectedFiles : Nat
  potentialLinesReduced : Int
  deriving DecidableEq, Repr

/-- One entry of the `duplications` field of the task result. -/
structure ResultDup where
  similarity : ℚ
  instances : List CodeBlock
  avgLines : Int
  potentialLinesReduced : Int
  deriving DecidableEq, Repr

/-- The task result object.  `none` in an outer `Option` models a field
that is **absent** from the returned JavaScript object; `reportPath =
some none` models an explicit `reportPath: null`.  `reportWritten`
records the filesystem effect: the content of the report file when the
write succeeded. -/
structure DetectResult where
  success : Bool
  error : Option String
  changes : Option (List String)
  metrics : Option Metrics
  duplications : Option (List ResultDup)
  reportPath : Option (Option String)
  reportWritten : Option String
  deriving DecidableEq, Repr

/-- Embeds `detectDuplicateCode` with its filesystem interaction made explicit:
`files` is the directory listing seen by `findSourceFiles` (path and
content of every file under the project root, reads assumed successful),
and `writeResult` is the outcome of `fs.writeFile` on the report
(`none` = success, `some msg` = the write threw with message `msg`; the
throw escapes to the function's outer `catch`, which returns
`{ success: false, error: msg }`). -/
def detectDuplicateCode (projectPath : String) (projectTypes : List String)
    (files : List (String × String)) (minBlockSize : Nat) (similarityThreshold : ℚ)
    (writeResult : Option String) : DetectResult :=
  let extensions := getFileExtensions projectTypes
  if extensions.isEmpty then
    ⟨true, none, some [], some ⟨0, 0, 0⟩, none, none, none⟩
  else
    let sourceFiles := files.filter fun f => extensions.any fun ext => strEndsWith f.1 ext
    if sourceFiles.isEmpty then
      ⟨true, none, some [], some ⟨0, 0, 0⟩, none, none, none⟩
    else
      let allBlocks := (sourceFiles.map fun f => findCodeBlocks f.1 f.2 minBlockSize).flatten
      let duplications := findDuplications (.arr allBlocks) similarityThreshold
      let reportPath := projectPath ++ "/.aiguardian/reports/duplicate-code-report.txt"
      let reportContent := buildReportContent projectPath sourceFiles.length duplications
      match writeResult with
      | some msg => ⟨false, some msg, none, none, none, none, none⟩
      | none =>
        ⟨true, none, some [],
          some ⟨duplications.length, affectedFilesCount duplications,
            totalPotentialLinesReduced duplications⟩,
          some (duplications.map fun d =>
            ⟨d.similarity, d.instances, avgLinesOf d.instances,
              dupPotentialLinesReduced d⟩),
          some (if 0 < duplications.length then some reportPath else none),
          some reportContent⟩

/-! ## Concrete fixtures used by witnesses and counterexamples -/

/-- The block text `a = 'x' + 'y'`, holding two single-quoted string
literals. -/
def twoLiteralsInput : String :=
  String.mk ("a = ".data ++ [squote, 'x', squote] ++ " + ".data ++ [squote, 'y', squote])

/-- The normal form `identifier = "identifier" + 'identifier'` of that text: the
first literal was masked to `"STRING"` (whose word was then bucketed),
the second kept its original single quotes. -/
def twoLiteralsNormal : String :=
  String.mk ("identifier = ".data ++ dquote :: "identifier".data ++ dquote :: " + ".data ++
    squote :: "identifier".data ++ [squote])

/-- A five-line block whose normal form is `var identifier = 0 ;`. -/
def wbA : CodeBlock := ⟨"a.js", 1, 5, "var x = 0 ;"⟩

/-- A five-line block in another file with the same normal form. -/
def wbC : CodeBlock := ⟨"c.js", 10, 14, "var z = 0 ;"⟩

/-- A five-line function (brace-balanced) used to exercise
`findCodeBlocks`. -/
def fiveLineFun : String := "function f() \x7b\na\nb\nc\n\x7d"

/-- Indentation pattern 0, 4, 2, 2: the third line is indented less than
its predecessor but not less than the level at which the run started. -/
def dipContent : String := "a\n    b\n  c\n  d"

/-! ## Theorems -/

/-- Helper: membership in `stableInsert`. -/
theorem mem_stableInsert (le : Duplication → Duplication → Bool) (a x : Duplication) :
    ∀ l : List Duplication, x ∈ stableInsert le a l ↔ x = a ∨ x ∈ l := by
  intro l
  induction l with
  | nil => simp [stableInsert]
  | cons b l ih =>
    by_cases h : le a b
    · simp [stableInsert, h, List.mem_cons]
    · simp only [stableInsert, if_neg h, List.mem_cons, ih]
      tauto

/-- Helper: `stableSort` preserves membership. -/
theorem mem_stableSort (le : Duplication → Duplication → Bool) (x : Duplication) :
    ∀ l : List Duplication, x ∈ stableSort le l ↔ x ∈ l := by
  intro l
  induction l with
  | nil => simp [stableSort]
  | cons a l ih => simp [stableSort, mem_stableInsert, ih, List.mem_cons]

/--
Claim C1 (confirmed).  `normalizeContent` applies its transformations in
exactly the source sequence: collapse whitespace, strip line comments
then block comments, mask only the **first** quoted string literal,
replace numeric-literal runs by `0`, canonicalise `var`/`let`/`const` to
`var`, keep the flow keywords, and bucket every remaining identifier into
`accessor` / `eventHandler` / `booleanVar` / `identifier`; the final
`.trim()` closes the chain.  The second conjunct exhibits the single-shot
string masking on a block with two literals: only the first becomes the
`"STRING"` placeholder (later re-tagged to `"identifier"` by the
bucketing pass); the second keeps its original single quotes and only its
content is bucketed.
-/
theorem C1_normalizeContent_pipeline :
    (∀ content : String,
      normalizeContent content =
        String.mk
          (jsTrimChars
            (bucketIdentifiers
              (keepKeywordsPass
                (normalizeVarDecls
                  (normalizeNumbers
                    (maskFirstStringLit
                      (stripBlockComments
                        (stripLineComments
                          (collapseWhitespace content.data)))))))))) ∧
    normalizeContent twoLiteralsInput = twoLiteralsNormal :=
  ⟨fun _ => rfl, by decide⟩

/--
Claim C2, counterexample (claim: normalization is idempotent).  It is not:
`normalizeContent "isReady" = "booleanVar"`, but a second pass moves the
placeholder `booleanVar` (no recognised prefix or suffix) to
`identifier`.
-/
theorem C2_idempotent_counterexample :
    normalizeContent (normalizeContent "isReady") ≠ normalizeContent "isReady" := by
  decide

/--
Claim C2, amended (corrected).  Normalization is not idempotent: a second
pass re-buckets the placeholder names that the first pass produced —
`booleanVar` and `accessor` fall into the `identifier` bucket, while
`identifier` and `eventHandler` (which matches its own `Handler` suffix)
are fixed points, as are the allow-listed keywords.
-/
theorem C2_rebucketing_amended :
    normalizeContent "isReady" = "booleanVar" ∧
    normalizeContent "booleanVar" = "identifier" ∧
    normalizeContent "getTotal" = "accessor" ∧
    normalizeContent "accessor" = "identifier" ∧
    normalizeContent "eventHandler" = "eventHandler" ∧
    normalizeContent "identifier" = "identifier" ∧
    normalizeContent "return" = "return" :=
  ⟨rfl, rfl, rfl, rfl, rfl, rfl, rfl⟩

/--
Claim C10 (confirmed).  `findDuplications` returns the empty list (and
cannot throw — it is total) when its `allBlocks` argument is `null`,
`undefined`, a non-array value, or an empty array.
-/
theorem C10_degenerate_argument (similarityThreshold : ℚ) :
    findDuplications JSValue.nullv similarityThreshold = [] ∧
    findDuplications JSValue.undefinedv similarityThreshold = [] ∧
    findDuplications JSValue.nonArray similarityThreshold = [] ∧
    findDuplications (JSValue.arr []) similarityThreshold = [] :=
  ⟨rfl, rfl, rfl, rfl⟩

/-- Helper: the same-file-overlap test is symmetric. -/
theorem sameFileOverlap_comm (b1 b2 : CodeBlock) :
    sameFileOverlap b1 b2 ↔ sameFileOverlap b2 b1 := by
  unfold sameFileOverlap
  constructor <;> rintro ⟨hf, h⟩ <;> exact ⟨hf.symm, h.symm⟩

/--
Claim C6 (confirmed).  The similarity scorer is symmetric:
`compareBlocks(A, B) = compareBlocks(B, A)` for every pair of blocks —
the overlap short-circuit, the normalized-equality test and the Jaccard
index are each symmetric.
-/
theorem C6_compareBlocks_symm (A B : CodeBlock) :
    compareBlocks A B = compareBlocks B A := by
  unfold compareBlocks
  by_cases h : sameFileOverlap A B
  · rw [if_pos h, if_pos ((sameFileOverlap_comm A B).mp h)]
  · rw [if_neg h, if_neg (fun hh => h ((sameFileOverlap_comm B A).mp hh))]
    by_cases he : normalizeContent A.content = normalizeContent B.content
    · rw [if_pos he, if_pos he.symm]
    · rw [if_neg he, if_neg (fun hh => he hh.symm)]
      simp only [Finset.inter_comm, Finset.union_comm]

/--
Claim C7 (confirmed).  The clusterer's threshold comparison is inclusive:
for a later unclaimed candidate that passes the size pre-filter, a
similarity exactly equal to `similarityThreshold` puts the candidate into
the anchor's match list, while a similarity strictly below it keeps the
candidate out.
-/
theorem C7_threshold_inclusive (blocks : List CodeBlock) (similarityThreshold : ℚ)
    (processed : List Nat) (i j : Nat) (hij : i < j) (hj : j < blocks.length)
    (hp : j ∉ processed)
    (hsz : ¬ sizeSkip (blocks.getD i default) (blocks.getD j default)) :
    (compareBlocks (blocks.getD i default) (blocks.getD j default) = similarityThreshold →
      j ∈ candidateMatches blocks similarityThreshold processed i) ∧
    (compareBlocks (blocks.getD i default) (blocks.getD j default) < similarityThreshold →
      j ∉ candidateMatches blocks similarityThreshold processed i) := by
  constructor
  · intro heq
    refine List.mem_filter.mpr ⟨List.mem_range'_1.mpr ⟨hij, by omega⟩, ?_⟩
    simp only [List.getD_eq_getElem?_getD] at hsz heq
    simp [hp, hsz, heq]
  · intro hlt hmem
    have hcond := (List.mem_filter.mp hmem).2
    simp only [Bool.and_eq_true, Bool.not_eq_true', decide_eq_false_iff_not,
      decide_eq_true_eq, List.getD_eq_getElem?_getD] at hcond
    simp only [List.getD_eq_getElem?_getD] at hlt
    exact absurd hcond.2 (not_le.mpr hlt)

/-- Witness for C7: with threshold exactly 1, the candidate block `wbC`
(whose normalized text equals that of the anchor `wbA`, similarity 1) is
accepted into the anchor's match list. -/
theorem C7_threshold_inclusive_witness :
    1 ∈ candidateMatches [wbA, wbC] 1 [] 0 :=
  (C7_threshold_inclusive [wbA, wbC] 1 [] 0 1 (by decide) (by decide) (by decide)
    (by decide)).1 rfl

/-- Helper: every accepted candidate scored at least the threshold
against the anchor. -/
theorem candidateMatches_le (blocks : List CodeBlock) (similarityThreshold : ℚ)
    (processed : List Nat) (i j : Nat)
    (hj : j ∈ candidateMatches blocks similarityThreshold processed i) :
    similarityThreshold ≤
      compareBlocks (blocks.getD i default) (blocks.getD j default) := by
  have hcond := (List.mem_filter.mp hj).2
  simp only [Bool.and_eq_true, decide_eq_true_eq, List.getD_eq_getElem?_getD] at hcond ⊢
  exact hcond.2

/-- Helper: left fold of rational addition in terms of the list sum. -/
theorem foldl_add_eq (l : List ℚ) : ∀ a : ℚ, l.foldl (· + ·) a = a + l.sum := by
  induction l with
  | nil => intro a; simp
  | cons x l ih => intro a; simp [ih, List.sum_cons]; ring

/-- Helper: a list of rationals all at least `q` sums to at least
`length * q`. -/
theorem sum_ge_length_mul (q : ℚ) (l : List ℚ) (h : ∀ x ∈ l, q ≤ x) :
    (l.length : ℚ) * q ≤ l.sum := by
  induction l with
  | nil => simp
  | cons x l ih =>
    have hx := h x (List.mem_cons_self x l)
    have ih2 := ih fun y hy => h y (List.mem_cons_of_mem _ hy)
    simp only [List.length_cons, List.sum_cons]
    push_cast
    nlinarith

/-- Helper: every duplication emitted by the clusterer loop has
similarity at least the threshold (the mean of anchor-to-match scores
that each passed the inclusive threshold test). -/
theorem findDupsGo_similarity (blocks : List CodeBlock) (similarityThreshold : ℚ) :
    ∀ (idxs processed : List Nat) (d : Duplication),
      d ∈ findDupsGo blocks similarityThreshold idxs processed →
        similarityThreshold ≤ d.similarity := by
  intro idxs
  induction idxs with
  | nil => intro processed d h; simp [findDupsGo] at h
  | cons i rest ih =>
    intro processed d h
    simp only [findDupsGo] at h
    by_cases h1 : processed.contains i = true
    · rw [if_pos h1] at h; exact ih processed d h
    · rw [if_neg h1] at h
      by_cases h2 : (candidateMatches blocks similarityThreshold processed i).isEmpty = true
      · rw [if_pos h2] at h; exact ih processed d h
      · rw [if_neg h2] at h
        rcases List.mem_cons.mp h with hd | hrest
        · subst hd
          have hne : candidateMatches blocks similarityThreshold processed i ≠ [] := by
            simpa [List.isEmpty_iff] using h2
          have hpos : (0 : ℚ) <
              ((candidateMatches blocks similarityThreshold processed i).length : ℚ) := by
            exact_mod_cast List.length_pos.mpr hne
          simp only [List.length_cons, List.length_map, Nat.add_sub_cancel]
          rw [foldl_add_eq, zero_add, le_div_iff₀ hpos]
          have hsum := sum_ge_length_mul similarityThreshold
            ((candidateMatches blocks similarityThreshold processed i).map fun j =>
              compareBlocks (blocks.getD i default) (blocks.getD j default))
            (by
              intro x hx
              rcases List.mem_map.mp hx with ⟨j, hjmem, hjx⟩
              rw [← hjx]
              exact candidateMatches_le blocks similarityThreshold processed i j hjmem)
          rw [List.length_map] at hsum
          linarith
        · exact ih _ d hrest

/--
Claim C9 (confirmed).  Every duplication object returned by
`findDuplications` has a `similarity` at least the configured
`similarityThreshold`: it is the arithmetic mean of the anchor-to-member
scores, each of which was individually required to be at least the
threshold by the inclusive comparison of the inner loop.
-/
theorem C9_cluster_similarity_ge_threshold (allBlocks : JSValue)
    (similarityThreshold : ℚ) (d : Duplication)
    (hd : d ∈ findDuplications allBlocks similarityThreshold) :
    similarityThreshold ≤ d.similarity := by
  cases allBlocks with
  | arr blocks =>
    simp only [findDuplications] at hd
    by_cases he : blocks.isEmpty = true
    · rw [if_pos he] at hd; simp at hd
    · rw [if_neg he] at hd
      exact findDupsGo_similarity blocks similarityThreshold _ _ d
        ((mem_stableSort _ _ _).mp hd)
  | nullv => simp [findDuplications] at hd
  | undefinedv => simp [findDuplications] at hd
  | nonArray => simp [findDuplications] at hd

/-- Witness for C9: the single cluster formed from `wbA` and `wbC` at
threshold 1 has similarity at least 1. -/
theorem C9_cluster_similarity_witness :
    1 ≤ ((findDuplications (JSValue.arr [wbA, wbC]) 1).headI).similarity :=
  C9_cluster_similarity_ge_threshold (JSValue.arr [wbA, wbC]) 1 _
    (List.mem_cons_self _ _)

/-- Helper: splitting on line feeds never yields an empty line list. -/
theorem splitNLChars_ne_nil (cs : List Char) : splitNLChars cs ≠ [] := by
  induction cs with
  | nil => simp [splitNLChars]
  | cons c rest ih =>
    simp only [splitNLChars]
    by_cases h : c = '\n'
    · simp [h]
    · rw [if_neg h]
      cases hs : splitNLChars rest with
      | nil => simp
      | cons l ls => simp

/-- Helper (C8, brace scan): assuming the collected lines all lie in the
index range of the open function, every emitted block spans at least as
many lines as it collected, hence at least `minBlockSize`. -/
theorem funScanAux_bounds (file : String) (minBlockSize : Nat) :
    ∀ (lines : List String) (i : Nat) (st : FunState),
      (st.inFunction = true → st.currentBlock.length + st.functionStart ≤ i) →
      ∀ b ∈ funScanAux file minBlockSize i st lines,
        b.startLine ≤ b.endLine ∧ minBlockSize ≤ b.endLine - b.startLine + 1 := by
  intro lines
  induction lines with
  | nil => intro i st hinv b hb; simp [funScanAux] at hb
  | cons rawLine rest ih =>
    intro i st hinv b hb
    simp only [funScanAux] at hb
    by_cases hskip : isSkippedLine (jsTrim rawLine) = true
    · rw [if_pos hskip] at hb
      exact ih (i + 1) st (fun h => Nat.le_succ_of_le (hinv h)) b hb
    · rw [if_neg hskip] at hb
      by_cases hstart : (!st.inFunction && isFunctionStart (jsTrim rawLine)) = true
      · rw [if_pos hstart] at hb
        refine ih (i + 1) _ ?_ b hb
        intro _
        simp only [List.length_singleton]
        omega
      · rw [if_neg hstart] at hb
        by_cases hin : st.inFunction = true
        · rw [if_pos hin] at hb
          have hlen := hinv hin
          by_cases hclose : st.braceCount + braceDelta (jsTrim rawLine) = 0
          · rw [if_pos hclose] at hb
            rcases List.mem_append.mp hb with hemit | hrec
            · by_cases hmin : minBlockSize ≤ (st.currentBlock ++ [jsTrim rawLine]).length
              · rw [if_pos hmin] at hemit
                simp only [List.mem_singleton] at hemit
                subst hemit
                simp only [List.length_append, List.length_singleton] at hmin
                exact ⟨by dsimp only; omega, by dsimp only; omega⟩
              · rw [if_neg hmin] at hemit
                simp at hemit
            · exact ih (i + 1) _ (fun h => by simp at h) b hrec
          · rw [if_neg hclose] at hb
            refine ih (i + 1) _ ?_ b hb
            intro _
            dsimp only
            simp only [List.length_append, List.length_singleton]
            omega
        · rw [if_neg hin] at hb
          exact ih (i + 1) st (fun h => absurd h hin) b hb

/-- Helper (C8, indentation scan): the analogous invariant for the
indentation pass, relative to the total line count used for the final
emission. -/
theorem indentScanAux_bounds (file : String) (minBlockSize total : Nat) :
    ∀ (lines : List String) (i : Nat) (lvl : Option Nat) (s : Nat) (blk : List String),
      i + lines.length = total →
      1 ≤ total →
      (lvl = none → blk = [] ∧ s = 0) →
      (lvl ≠ none → blk ≠ [] ∧ blk.length + s ≤ i) →
      ∀ b ∈ indentScanAux file minBlockSize total i ⟨lvl, s, blk⟩ lines,
        b.startLine ≤ b.endLine ∧ minBlockSize ≤ b.endLine - b.startLine + 1 := by
  intro lines
  induction lines with
  | nil =>
    intro i lvl s blk htot h1 hnone hsome b hb
    simp only [List.length_nil, Nat.add_zero] at htot
    simp only [indentScanAux] at hb
    by_cases hmin : minBlockSize ≤ blk.length
    · rw [if_pos hmin] at hb
      simp only [List.mem_singleton] at hb
      subst hb
      cases lvl with
      | none =>
        obtain ⟨hblk, hs⟩ := hnone rfl
        subst hblk hs
        simp only [List.length_nil] at hmin
        exact ⟨by dsimp only; omega, by dsimp only; omega⟩
      | some l =>
        obtain ⟨hne, hle⟩ := hsome (by simp)
        have hpos := List.length_pos.mpr hne
        exact ⟨by dsimp only; omega, by dsimp only; omega⟩
    · rw [if_neg hmin] at hb
      simp at hb
  | cons rawLine rest ih =>
    intro i lvl s blk htot h1 hnone hsome b hb
    simp only [List.length_cons] at htot
    simp only [indentScanAux] at hb
    by_cases hblank : jsTrim rawLine = ""
    · rw [if_pos hblank] at hb
      refine ih (i + 1) lvl s blk (by omega) h1 hnone
        (fun h => ⟨(hsome h).1, by have := (hsome h).2; omega⟩) b hb
    · rw [if_neg hblank] at hb
      cases lvl with
      | none =>
        dsimp only at hb
        refine ih (i + 1) _ _ _ (by omega) h1 (by simp) ?_ b hb
        intro _
        refine ⟨by simp, ?_⟩
        simp only [List.length_singleton]
        omega
      | some l =>
        dsimp only at hb
        by_cases hlt : l < leadingWS rawLine
        · rw [if_pos hlt] at hb
          refine ih (i + 1) (some l) s (blk ++ [jsTrim rawLine]) (by omega) h1 (by simp)
            ?_ b hb
          intro _
          refine ⟨by simp, ?_⟩
          have := (hsome (by simp)).2
          simp only [List.length_append, List.length_singleton]
          omega
        · rw [if_neg hlt] at hb
          by_cases hlt2 : leadingWS rawLine < l
          · rw [if_pos hlt2] at hb
            rcases List.mem_append.mp hb with hemit | hrec
            · by_cases hmin : minBlockSize ≤ blk.length
              · rw [if_pos hmin] at hemit
                simp only [List.mem_singleton] at hemit
                subst hemit
                obtain ⟨hne, hle⟩ := hsome (by simp)
                have hpos := List.length_pos.mpr hne
                exact ⟨by dsimp only; omega, by dsimp only; omega⟩
              · rw [if_neg hmin] at hemit
                simp at hemit
            · refine ih (i + 1) _ _ _ (by omega) h1 (by simp) ?_ b hrec
              intro _
              refine ⟨by simp, ?_⟩
              simp only [List.length_singleton]
              omega
          · rw [if_neg hlt2] at hb
            refine ih (i + 1) (some l) s (blk ++ [jsTrim rawLine]) (by omega) h1 (by simp)
              ?_ b hb
            intro _
            refine ⟨by simp, ?_⟩
            have := (hsome (by simp)).2
            simp only [List.length_append, List.length_singleton]
            omega

/--
Claim C8 (confirmed).  Every `CodeBlock` emitted by `findCodeBlocks` — by
the function-boundary scan or by the indentation-run scan — satisfies
`startLine ≤ endLine` and `endLine - startLine + 1 ≥ minBlockSize`: both
scans emit a block only when the collected line count reaches
`minBlockSize`, and the collected lines always lie inside the emitted
line range.
-/
theorem C8_min_size_floor (filePath content : String) (minBlockSize : Nat)
    (b : CodeBlock) (hb : b ∈ findCodeBlocks filePath content minBlockSize) :
    b.startLine ≤ b.endLine ∧ minBlockSize ≤ b.endLine - b.startLine + 1 := by
  simp only [findCodeBlocks] at hb
  rcases List.mem_append.mp hb with h | h
  · exact funScanAux_bounds filePath minBlockSize (splitLines content) 0 _
      (fun hh => by simp at hh) b h
  · have hne : splitLines content ≠ [] := by
      simp only [splitLines, ne_eq, List.map_eq_nil_iff]
      exact splitNLChars_ne_nil content.data
    simp only [indentScan] at h
    exact indentScanAux_bounds filePath minBlockSize (splitLines content).length
      (splitLines content) 0 none 0 [] (by simp) (List.length_pos.mpr hne)
      (fun _ => ⟨rfl, rfl⟩) (fun hh => absurd rfl hh) b h

/-- Witness for C8: the first block that `findCodeBlocks` extracts from a
five-line function at `minBlockSize = 5` spans at least five lines. -/
theorem C8_min_size_floor_witness :
    ((findCodeBlocks "w.js" fiveLineFun 5).headI).startLine ≤
        ((findCodeBlocks "w.js" fiveLineFun 5).headI).endLine ∧
      5 ≤ ((findCodeBlocks "w.js" fiveLineFun 5).headI).endLine -
        ((findCodeBlocks "w.js" fiveLineFun 5).headI).startLine + 1 :=
  C8_min_size_floor "w.js" fiveLineFun 5 _ (List.mem_cons_self _ _)

/-- Helper (C3): the source's indentation scan and the run-start-level
specification scan agree from corresponding states, for any positive
minimum block size (the corner `minBlockSize = 0`, unreachable from the
task, would additionally emit an empty trailing pseudo-run). -/
theorem indentScanAux_agree (file : String) (minBlockSize total : Nat)
    (hmin : 1 ≤ minBlockSize) :
    ∀ (lines : List String) (i : Nat),
      (indentScanAux file minBlockSize total i ⟨none, 0, []⟩ lines =
        indentScanStartAux file minBlockSize total i none lines) ∧
      (∀ (s lvl : Nat) (blk : List String),
        indentScanAux file minBlockSize total i ⟨some lvl, s, blk⟩ lines =
          indentScanStartAux file minBlockSize total i (some (s, lvl, blk)) lines) := by
  intro lines
  induction lines with
  | nil =>
    intro i
    constructor
    · simp only [indentScanAux, indentScanStartAux]
      have h0 : ¬ (minBlockSize ≤ ([] : List String).length) := by
        simp only [List.length_nil]
        omega
      rw [if_neg h0]
    · intro s lvl blk
      simp only [indentScanAux, indentScanStartAux]
  | cons rawLine rest ih =>
    intro i
    constructor
    · simp only [indentScanAux, indentScanStartAux]
      by_cases hblank : jsTrim rawLine = ""
      · rw [if_pos hblank, if_pos hblank]
        exact (ih (i + 1)).1
      · rw [if_neg hblank, if_neg hblank]
        exact (ih (i + 1)).2 i (leadingWS rawLine) [jsTrim rawLine]
    · intro s lvl blk
      simp only [indentScanAux, indentScanStartAux]
      by_cases hblank : jsTrim rawLine = ""
      · rw [if_pos hblank, if_pos hblank]
        exact (ih (i + 1)).2 s lvl blk
      · rw [if_neg hblank, if_neg hblank]
        by_cases hlt : lvl < leadingWS rawLine
        · rw [if_pos hlt, if_neg (by omega : ¬ leadingWS rawLine < lvl)]
          exact (ih (i + 1)).2 s lvl (blk ++ [jsTrim rawLine])
        · by_cases hlt2 : leadingWS rawLine < lvl
          · rw [if_neg hlt, if_pos hlt2, if_pos hlt2]
            congr 1
            exact (ih (i + 1)).2 i (leadingWS rawLine) [jsTrim rawLine]
          · rw [if_neg hlt, if_neg hlt2, if_neg hlt2]
            exact (ih (i + 1)).2 s lvl (blk ++ [jsTrim rawLine])

/--
Claim C3, counterexample (claim: a new block begins exactly when a
non-blank line's indentation decreases relative to the *previous* line's
indentation).  On the indentation pattern 0, 4, 2, 2 the scan keeps one
single run — the third line (indent 2) is compared against the level at
which the run started (0), not against the previous line's level (4) —
while the claimed previous-line rule would split after the second line.
-/
theorem C3_prevline_counterexample :
    indentScan "h.js" dipContent 2 ≠ indentScanPrevSpec "h.js" dipContent 2 := by
  decide

/--
Claim C3, amended (corrected).  In the indentation-run scan of
`findCodeBlocks`, a new block begins exactly when a non-blank line's
leading-whitespace indentation decreases strictly below the indentation
level recorded **when the current run started** (or at the first
non-blank line), and each completed run is emitted iff the count of its
collected non-blank lines meets the minimum block size (stated for
`minBlockSize ≥ 1`; the task never calls the scan with 0).
-/
theorem C3_startlevel_amended (file content : String) (minBlockSize : Nat)
    (hmin : 1 ≤ minBlockSize) :
    indentScan file content minBlockSize = indentScanStartSpec file content minBlockSize := by
  simp only [indentScan, indentScanStartSpec]
  exact (indentScanAux_agree file minBlockSize (splitLines content).length hmin
    (splitLines content) 0).1

/-- Witness for the amended C3 on the 0, 4, 2, 2 indentation pattern. -/
theorem C3_startlevel_amended_witness :
    indentScan "h.js" dipContent 2 = indentScanStartSpec "h.js" dipContent 2 :=
  C3_startlevel_amended "h.js" dipContent 2 (by decide)

/--
Claim C4, counterexample (claim: a report-write failure is caught and the
analysis still returns `success: true` with `reportPath: null`).  It is
not: the `fs.writeFile` call sits inside the function's single outer
`try`, so a write error reaches the outer `catch`, which returns
`{ success: false, error: message }` — here shown on a one-file project
whose report write fails. -/
theorem C4_write_failure_counterexample :
    ¬ ((detectDuplicateCode "p" [] [("p/a.js", "x")] 5 1 (some "EACCES")).success = true ∧
       (detectDuplicateCode "p" [] [("p/a.js", "x")] 5 1
         (some "EACCES")).reportPath = some none) := by
  decide

/--
Claim C4, amended (corrected).  If writing the report file fails, the error
propagates to `detectDuplicateCode`'s top-level catch, which logs it and
returns `{ success: false, error: message }`; the in-memory analysis
result, metrics, duplications and report path are all discarded. -/
theorem C4_write_failure_amended (projectPath : String) (projectTypes : List String)
    (files : List (String × String)) (minBlockSize : Nat) (similarityThreshold : ℚ)
    (msg : String)
    (hext : (getFileExtensions projectTypes).isEmpty = false)
    (hsrc : (files.filter fun f =>
        (getFileExtensions projectTypes).any fun ext => strEndsWith f.1 ext).isEmpty =
      false) :
    detectDuplicateCode projectPath projectTypes files minBlockSize similarityThreshold
        (some msg) =
      ⟨false, some msg, none, none, none, none, none⟩ := by
  simp [detectDuplicateCode, hext, hsrc]

/-- Witness for the amended C4 at a concrete failing write. -/
theorem C4_write_failure_amended_witness :
    detectDuplicateCode "p" [] [("p/a.js", "x")] 5 1 (some "EACCES") =
      ⟨false, some "EACCES", none, none, none, none, none⟩ :=
  C4_write_failure_amended "p" [] [("p/a.js", "x")] 5 1 "EACCES" (by decide) (by decide)

/--
Claim C5, counterexample (claim: with zero matching source files the result
carries `duplications: []` and a report stating that no duplicates were
found).  It does not: the zero-source-files early return carries **no**
`duplications` field at all, and returns before any report is generated
or written. -/
theorem C5_no_files_counterexample :
    (detectDuplicateCode "p" [] [] 5 1 none).duplications ≠ some [] ∧
    (detectDuplicateCode "p" [] [] 5 1 none).reportWritten = none := by
  decide

/--
Claim C5, amended (corrected).  For a project with zero source files
matching the extension list, `detectDuplicateCode` returns
`success: true` with all-zero metrics and `changes: []`, but the result
has no `duplications` field (not an empty list) and no report is written
(the "no duplicate code blocks" report text is only produced when at
least one source file was scanned). -/
theorem C5_no_files_amended (projectPath : String) (projectTypes : List String)
    (files : List (String × String)) (minBlockSize : Nat) (similarityThreshold : ℚ)
    (writeResult : Option String)
    (hsrc : (files.filter fun f =>
        (getFileExtensions projectTypes).any fun ext => strEndsWith f.1 ext) = []) :
    detectDuplicateCode projectPath projectTypes files minBlockSize similarityThreshold
        writeResult =
      ⟨true, none, some [], some ⟨0, 0, 0⟩, none, none, none⟩ := by
  by_cases hext : (getFileExtensions projectTypes).isEmpty = true
  · simp [detectDuplicateCode, hext]
  · simp [detectDuplicateCode, hext, hsrc]

/-- Witness for the amended C5: a project whose only file matches no
extension. -/
theorem C5_no_files_amended_witness :
    detectDuplicateCode "p" [] [("p/readme.md", "x")] 5 1 none =
      ⟨true, none, some [], some ⟨0, 0, 0⟩, none, none, none⟩ :=
  C5_no_files_amended "p" [] [("p/readme.md", "x")] 5 1 none (by decide)

end AIGuardian
